import Mathlib

/-!
Verification of the bonfire-discord synchronization engine.

Shallow embedding of the engine's pure core, translated from the source:
  - `processNewPost`     — the pending-post branch of `setupNewPostListener`
                           (src/services/firestoreListeners.js) driving
                           `postToDiscord`;
  - `internalWriteBack`, `clearInternalFlag`, the listener dispatch
    predicates — `handleDiscordMessageUpdate` / `setupPostUpdateListener`;
  - `joinRoam` / `leaveRoam` — `handleRoamSignup` / `handleRoamUnsignup`
    (newest versions, with guest handling);
  - `updateReactionCount` — the reaction-count write path;
  - `sweepRecord` / `syncAllReactionCounts` — the reaction-count sweeper;
  - `getFirebaseUserId` — `UserCache.getFirebaseUserId`;
  - `signupResolve` — the user-resolution step `handleRoamSignup` actually
    performs (a direct read of the users collection on every event).

External I/O (the Discord channel, Firestore reads/writes that can fail)
is passed in as explicit oracle functions / `Except` results, so every
definition is executable.
-/

namespace BonfireDiscord

/-- The acknowledgement emoji used throughout the service. -/
def ackEmoji : String := "✅"

/-- Lifecycle status of an announcement record (`status` field). -/
inductive Status where
  | pending
  | posted
  | errored
  | deleted
deriving DecidableEq

/-- Metadata `postToDiscord` returns on a successful channel send. -/
structure DiscordMessageData where
  messageId : String
  channelId : String
  url : String
deriving DecidableEq

/-- An announcement record of the `discord_posts` collection, with the
fields the engine reads or writes. Timestamps are naturals. -/
structure Post where
  title : String
  description : String
  author : String
  additionalInfo : String
  roamId : Option String
  status : Status
  discordMessageId : Option String
  discordChannelId : Option String
  discordUrl : Option String
  reactions : List (String × Nat)
  updateRequested : Bool
  internalUpdateFlag : Bool
  errorMsg : Option String
  errorAt : Option Nat
  updateError : Option String
  updateErrorAt : Option Nat
  createdAt : Option Nat
  postedAt : Option Nat
  lastUpdated : Option Nat
  lastReactionUpdate : Option Nat
  lastReactionSync : Option Nat
deriving DecidableEq

/-- The `reactions.<emoji> = count` dot-path update: replace the first
binding of the emoji, or append one. -/
def setReaction : List (String × Nat) → String → Nat → List (String × Nat)
  | [], e, c => [(e, c)]
  | (k, v) :: rest, e, c =>
      if k = e then (e, c) :: rest else (k, v) :: setReaction rest e c

/-- The pending-post branch of `setupNewPostListener`: `sendResult` is the
outcome of `postToDiscord` (formatting + channel send), `writeErr` a failure
of the posted-metadata write-back (caught by the same `try`).  Success
writes `status=posted` with the Discord metadata and `reactions={✅:0}`;
any failure writes `status=error`, the message and `errorAt` — no retry. -/
def processNewPost (p : Post) (sendResult : Except String DiscordMessageData)
    (writeErr : Option String) (now : Nat) : Post :=
  match sendResult with
  | .error msg =>
      { p with status := .errored, errorMsg := some msg, errorAt := some now }
  | .ok d =>
      match writeErr with
      | some msg =>
          { p with status := .errored, errorMsg := some msg, errorAt := some now }
      | none =>
          { p with status := .posted,
                   discordMessageId := some d.messageId,
                   discordChannelId := some d.channelId,
                   discordUrl := some d.url,
                   postedAt := some now,
                   reactions := [(ackEmoji, 0)] }

/-- Content fields the disabled auto-update detector watches. -/
def fieldsToWatch : List String :=
  ["title", "description", "additionalInfo", "roamDetails"]

/-- `hasContentChanges` of `setupPostUpdateListener`: the comparison
callback always returns false (auto-updates are disabled in the source). -/
def hasContentChanges : Bool :=
  fieldsToWatch.any (fun _ => false)

/-- The manual-update listener (`where('updateRequested','==',true)`)
dispatches an edit for a changed record exactly when the record still has
`updateRequested` set. -/
def manualUpdateDispatch (p : Post) : Bool :=
  p.updateRequested

/-- The auto-update listener (`where('status','==','posted')`) dispatches an
edit for a modified record unless the record is a manual request or an
internal write-back, and only when the (disabled) content diff fires. -/
def autoUpdateDispatch (p : Post) : Bool :=
  p.status == Status.posted
    && !(p.updateRequested || p.internalUpdateFlag)
    && hasContentChanges

/-- The write-back `handleDiscordMessageUpdate` performs after editing the
channel message: stamp `lastUpdated`, set `_isInternalUpdate`, and clear
`updateRequested` when it was set. -/
def internalWriteBack (p : Post) (now : Nat) : Post :=
  let p1 := { p with lastUpdated := some now, internalUpdateFlag := true }
  if p.updateRequested then { p1 with updateRequested := false } else p1

/-- The delayed (≈1 s) write that clears the loop-prevention flag. -/
def clearInternalFlag (p : Post) : Post :=
  { p with internalUpdateFlag := false }

/-! ## Roster (gameData/roams) model -/

/-- A structured guest record as `handleRoamSignup` appends it. -/
structure Guest where
  discordId : String
  discordUsername : String
  addedAt : Nat
deriving DecidableEq

/-- A guest-list element: the source handles both the legacy format (a bare
Discord id string) and the structured record. -/
inductive GuestEntry where
  | legacy (id : String)
  | entry (g : Guest)
deriving DecidableEq

/-- The external id of a guest entry
(`typeof guest === 'string' ? guest : guest.discordId`). -/
def GuestEntry.gid : GuestEntry → String
  | .legacy i => i
  | .entry g => g.discordId

/-- One scheduled roam (Event) of the singleton roster document. -/
structure Roam where
  id : String
  signups : List String
  guests : List GuestEntry
deriving DecidableEq

/-- The external ids of a roam's guest list. -/
def guestIds (r : Roam) : List String :=
  r.guests.map GuestEntry.gid

/-- The roster invariant of the data model: `signups` and the guest list
are duplicate-free by external id, and no id is in both. -/
def roamInv (r : Roam) : Prop :=
  r.signups.Nodup ∧ (guestIds r).Nodup ∧ ∀ u ∈ r.signups, u ∉ guestIds r

instance (r : Roam) : Decidable (roamInv r) := by
  unfold roamInv guestIds; infer_instance

/-- The per-roam mutation of `handleRoamSignup` (join / reaction-added).
`isRegistered` is whether the users-collection read found the reactor.
Registered: no-op when already in `signups`, else drop the id from `guests`
and append it to `signups`.  Unregistered: no-op when already a guest or
already in `signups`, else append a structured guest record. -/
def joinRoam (isRegistered : Bool) (uid uname : String) (now : Nat)
    (roam : Roam) : Roam :=
  if isRegistered then
    if uid ∈ roam.signups then roam
    else
      { roam with
          guests := roam.guests.filter (fun g => g.gid != uid),
          signups := roam.signups ++ [uid] }
  else
    if uid ∈ guestIds roam then roam
    else if uid ∈ roam.signups then roam
    else
      { roam with
          guests := roam.guests ++ [GuestEntry.entry ⟨uid, uname, now⟩] }

/-- The per-roam mutation of `handleRoamUnsignup` (leave /
reaction-removed), with the `wasRemoved` flag: only a registered reactor is
filtered out of `signups`; when that removes nothing (or the reactor is
unregistered) the guest list is filtered by external id; when neither
changes length the handler logs "was not signed up" and leaves the roster
untouched (flag `false`). -/
def leaveRoam (isRegistered : Bool) (uid : String) (roam : Roam) :
    Roam × Bool :=
  let fromSignups : Option Roam :=
    if isRegistered then
      let us := roam.signups.filter (fun x => x != uid)
      if us.length ≠ roam.signups.length then
        some { roam with signups := us }
      else none
    else none
  match fromSignups with
  | some r2 => (r2, true)
  | none =>
      let ug := roam.guests.filter (fun g => g.gid != uid)
      if ug.length ≠ roam.guests.length then
        ({ roam with guests := ug }, true)
      else (roam, false)

/-- `scheduledRoams.findIndex(roam => roam.id === roamId)` followed by
`scheduledRoams[roamIndex] = roam`: apply `f` to the first roam whose id
matches, leaving every other roam untouched (the handlers return without
writing when the roam id is absent). -/
def applyToRoam (roamId : String) (f : Roam → Roam) :
    List Roam → List Roam
  | [] => []
  | r :: rs =>
      if r.id = roamId then f r :: rs
      else r :: applyToRoam roamId f rs

/-- One reaction event as the roster reconciler sees it. -/
inductive RosterEvent where
  | join (roamId : String) (isRegistered : Bool) (uid uname : String)
      (now : Nat)
  | leave (roamId : String) (isRegistered : Bool) (uid : String)

/-- Dispatch one reconciliation event against the scheduled-roams list. -/
def applyRosterEvent (e : RosterEvent) (roams : List Roam) : List Roam :=
  match e with
  | .join rid reg uid uname now =>
      applyToRoam rid (joinRoam reg uid uname now) roams
  | .leave rid reg uid =>
      applyToRoam rid (fun r => (leaveRoam reg uid r).1) roams

/-- A sequence of reconciliation events, oldest first. -/
def applyRosterEvents (es : List RosterEvent) (roams : List Roam) :
    List Roam :=
  es.foldl (fun rs e => applyRosterEvent e rs) roams

/-! ## Reaction-count write path -/

/-- The `where('discordMessageId','==',mid)` query predicate. -/
def matchesMessage (mid : String) (p : Post) : Bool :=
  p.discordMessageId == some mid

/-- The update `updateReactionCount` applies to the matched record:
`reactions.<emoji> = count` and a `lastReactionUpdate` stamp. -/
def applyReactionUpdate (emoji : String) (count now : Nat) (p : Post) :
    Post :=
  { p with reactions := setReaction p.reactions emoji count,
           lastReactionUpdate := some now }

/-- `updateReactionCount(discordMessageId, emoji, count)`: when the query is
empty the store is untouched; otherwise only `querySnapshot.docs[0]` — the
first matching record — is updated. -/
def updateReactionCount (mid emoji : String) (count now : Nat) :
    List Post → List Post
  | [] => []
  | p :: ps =>
      if matchesMessage mid p then applyReactionUpdate emoji count now p :: ps
      else p :: updateReactionCount mid emoji count now ps

/-! ## Reaction-count sweeper -/

/-- The sweeper's query:
`where('status','==','posted').where('discordMessageId','!=',null)`. -/
def sweepFilter (p : Post) : Bool :=
  p.status == Status.posted && p.discordMessageId.isSome

/-- One iteration of the sweep loop for a record of the query. `fetch` is
`getMessageReactionStats` (none = the Discord fetch throws), `writeOk`
whether the Firestore write-back succeeds; either failure is caught, logged
and the record skipped (flag `false`).  Success overwrites `reactions` with
the authoritative snapshot and stamps `lastReactionSync` (flag `true`). -/
def sweepRecord (fetch : String → Option (List (String × Nat)))
    (writeOk : String → Bool) (now : Nat) (p : Post) : Post × Bool :=
  match p.discordMessageId with
  | none => (p, false)
  | some mid =>
      match fetch mid with
      | none => (p, false)
      | some stats =>
          if writeOk mid then
            ({ p with reactions := stats, lastReactionSync := some now },
              true)
          else (p, false)

/-- `syncAllReactionCounts()` over the whole store: records outside the
query are untouched; each queried record is swept independently; the
returned count is the number of records successfully corrected. -/
def syncAllReactionCounts (fetch : String → Option (List (String × Nat)))
    (writeOk : String → Bool) (now : Nat) : List Post → List Post × Nat
  | [] => ([], 0)
  | p :: ps =>
      let rest := syncAllReactionCounts fetch writeOk now ps
      if sweepFilter p then
        let step := sweepRecord fetch writeOk now p
        (step.1 :: rest.1, (if step.2 then 1 else 0) + rest.2)
      else (p :: rest.1, rest.2)

/-! ## Identity cache and the reconciler's user resolution -/

/-- One row of the users collection as the cache query reads it:
the Firestore document id and the username field. -/
structure UserRow where
  firebaseDocId : String
  username : String
deriving DecidableEq

/-- A cache value: `{ firebaseId, username, lastUpdated }`. -/
structure CacheEntry where
  firebaseId : String
  username : String
  lastUpdated : Nat
deriving DecidableEq

/-- What `getFirebaseUserId` returns on success. -/
structure ResolvedUser where
  firebaseId : String
  username : String
  fromCache : Bool
deriving DecidableEq

/-- `this.cacheTimeout = 5 * 60 * 1000` (milliseconds). -/
def cacheTimeoutMs : Nat := 5 * 60 * 1000

/-- JS `Map.set`: replace the binding in place, or append a new one. -/
def cacheSet (cache : List (String × CacheEntry)) (k : String)
    (v : CacheEntry) : List (String × CacheEntry) :=
  match cache with
  | [] => [(k, v)]
  | (k0, v0) :: rest =>
      if k0 = k then (k, v) :: rest else (k0, v0) :: cacheSet rest k v

/-- The cache-miss path of `UserCache.getFirebaseUserId`: one Firestore
query (`where('id','==',discordId).limit(1)`); a hit populates the cache
with the current timestamp, a miss caches nothing (negative results are
not cached).  Returns (result, new cache, store lookups performed). -/
def queryUsers (users : String → Option UserRow)
    (cache : List (String × CacheEntry)) (now : Nat) (discordId : String) :
    Option ResolvedUser × List (String × CacheEntry) × Nat :=
  match users discordId with
  | none => (none, cache, 1)
  | some u =>
      (some ⟨u.firebaseDocId, u.username, false⟩,
        cacheSet cache discordId ⟨u.firebaseDocId, u.username, now⟩, 1)

/-- `UserCache.getFirebaseUserId(discordId)`: a cached entry younger than
the TTL is returned with no store I/O; otherwise the store is queried. -/
def getFirebaseUserId (users : String → Option UserRow)
    (cache : List (String × CacheEntry)) (now : Nat) (discordId : String) :
    Option ResolvedUser × List (String × CacheEntry) × Nat :=
  match cache.lookup discordId with
  | some e =>
      if now - e.lastUpdated < cacheTimeoutMs then
        (some ⟨e.firebaseId, e.username, true⟩, cache, 0)
      else queryUsers users cache now discordId
  | none => queryUsers users cache now discordId

/-- The user-resolution step `handleRoamSignup` actually performs: an
unconditional direct read of the users collection
(`collections.get('users').doc(discordUserId).get()`) on every event — the
identity cache is not consulted.  Returns whether the reactor is a
registered user and the number of store reads (always one). -/
def signupResolve (users : String → Option UserRow)
    (discordUserId : String) : Bool × Nat :=
  match users discordUserId with
  | some _ => (true, 1)
  | none => (false, 1)

/-! ## Concrete inputs for witnesses and counterexamples -/

/-- A two-user account store: U1 and U2 are registered. -/
def demoUsers : String → Option UserRow := fun i =>
  if i = "U1" then some ⟨"F1", "alice"⟩
  else if i = "U2" then some ⟨"F2", "bob"⟩
  else none

/-- A roam holding a registered signup and a structured guest. -/
def demoRoam1 : Roam :=
  { id := "R1", signups := ["U1"],
    guests := [GuestEntry.entry ⟨"G1", "spectator", 5⟩] }

/-- A roster with the single roam `demoRoam1`. -/
def demoRoams : List Roam :=
  [demoRoam1]

/-- A short event history against `demoRoams`. -/
def demoEvents : List RosterEvent :=
  [RosterEvent.join "R1" false "G2" "walkin" 10,
   RosterEvent.join "R1" true "U2" "bob" 11,
   RosterEvent.join "R1" true "U2" "bob" 12,
   RosterEvent.leave "R1" true "U1",
   RosterEvent.leave "R1" false "G1"]

/-- A posted record tied to Discord message M1 and roam R1. -/
def demoPost : Post :=
  { title := "Evening Roam", description := "", author := "ops",
    additionalInfo := "", roamId := some "R1", status := Status.posted,
    discordMessageId := some "M1", discordChannelId := some "C1",
    discordUrl := some "https://discord.test/M1",
    reactions := [(ackEmoji, 0)], updateRequested := false,
    internalUpdateFlag := false, errorMsg := none, errorAt := none,
    updateError := none, updateErrorAt := none, createdAt := some 1,
    postedAt := some 2, lastUpdated := none, lastReactionUpdate := none,
    lastReactionSync := none }

/-- A still-pending record with no Discord metadata. -/
def demoPendingPost : Post :=
  { demoPost with status := Status.pending, discordMessageId := none,
                  discordChannelId := none, discordUrl := none,
                  postedAt := none }

/-- A two-record store for the sweeper and reaction-count witnesses. -/
def demoStore : List Post :=
  [demoPost, demoPendingPost]

/-- The channel's authoritative reaction snapshot: only M1 exists. -/
def demoFetch : String → Option (List (String × Nat)) := fun mid =>
  if mid = "M1" then some [(ackEmoji, 3)] else none

/-- Every Firestore write-back in the demo sweep succeeds. -/
def demoWriteOk : String → Bool := fun _ => true

/-- A roam used by the corrected leave claim: the reactor's id sits in
`signups` while the reactor is not a registered user. -/
def demoStaleRoam : Roam :=
  { id := "R1", signups := ["U1"], guests := [] }

end BonfireDiscord

namespace BonfireDiscord

/-! ## List helpers -/

theorem mem_filter_bne (l : List String) (a uid : String) :
    a ∈ l.filter (fun x => x != uid) ↔ a ∈ l ∧ a ≠ uid := by
  simp [List.mem_filter, bne_iff_ne]

theorem guestIds_filter (gs : List GuestEntry) (uid : String) :
    (gs.filter (fun g => g.gid != uid)).map GuestEntry.gid =
      (gs.map GuestEntry.gid).filter (fun x => x != uid) := by
  induction gs with
  | nil => rfl
  | cons g gs ih =>
      by_cases h : g.gid = uid <;>
        simp [List.filter_cons, h, ih]

theorem filter_bne_eq_self (l : List String) (uid : String)
    (h : uid ∉ l) : l.filter (fun x => x != uid) = l := by
  apply List.filter_eq_self.mpr
  intro x hx
  simp only [bne_iff_ne, ne_eq, decide_eq_true_eq]
  exact fun hxe => h (hxe ▸ hx)

theorem filter_bne_length_lt (l : List String) (uid : String)
    (h : uid ∈ l) : (l.filter (fun x => x != uid)).length < l.length := by
  induction l with
  | nil => cases h
  | cons a as ih =>
      rcases List.mem_cons.mp h with h1 | h1
      · subst h1
        simp only [List.filter_cons, bne_self_eq_false, if_neg,
          Bool.false_eq_true, not_false_eq_true, List.length_cons]
        exact Nat.lt_succ_of_le (List.length_filter_le _ _)
      · by_cases h2 : a = uid
        · subst h2
          simp only [List.filter_cons, bne_self_eq_false, Bool.false_eq_true,
            if_neg, not_false_eq_true, List.length_cons]
          exact Nat.lt_succ_of_le (List.length_filter_le _ _)
        · have : (a != uid) = true := by simp [bne_iff_ne, h2]
          simp only [List.filter_cons, this, if_pos, List.length_cons]
          exact Nat.succ_lt_succ (ih h1)

theorem guest_filter_eq_self (gs : List GuestEntry) (uid : String)
    (h : uid ∉ gs.map GuestEntry.gid) :
    gs.filter (fun g => g.gid != uid) = gs := by
  apply List.filter_eq_self.mpr
  intro g hg
  simp only [bne_iff_ne, ne_eq, decide_eq_true_eq]
  exact fun hge => h (hge ▸ List.mem_map_of_mem GuestEntry.gid hg)

theorem guest_filter_length_lt (gs : List GuestEntry) (uid : String)
    (h : uid ∈ gs.map GuestEntry.gid) :
    (gs.filter (fun g => g.gid != uid)).length < gs.length := by
  have h1 : ((gs.map GuestEntry.gid).filter
      (fun x => x != uid)).length < (gs.map GuestEntry.gid).length :=
    filter_bne_length_lt _ _ h
  rw [← guestIds_filter] at h1
  simpa using h1

/-! ## Reconciliation invariant preservation -/

theorem joinRoam_inv (reg : Bool) (uid uname : String) (now : Nat)
    (r : Roam) (h : roamInv r) :
    roamInv (joinRoam reg uid uname now r) := by
  obtain ⟨hs, hg, hme⟩ := h
  cases reg with
  | false =>
      by_cases h1 : uid ∈ guestIds r
      · simpa [joinRoam, h1] using ⟨hs, hg, hme⟩
      · by_cases h2 : uid ∈ r.signups
        · simpa [joinRoam, h1, h2] using ⟨hs, hg, hme⟩
        · have hres : joinRoam false uid uname now r =
              { r with guests :=
                  r.guests ++ [GuestEntry.entry ⟨uid, uname, now⟩] } := by
            simp [joinRoam, h1, h2]
          rw [hres]
          refine ⟨hs, ?_, ?_⟩
          · show ((r.guests ++ [GuestEntry.entry ⟨uid, uname, now⟩]).map
              GuestEntry.gid).Nodup
            rw [List.map_append]
            rw [List.nodup_append]
            refine ⟨hg, List.nodup_singleton uid, ?_⟩
            intro x hx
            simp only [List.map_cons, List.map_nil, GuestEntry.gid,
              List.mem_singleton]
            intro hxe
            exact h1 (hxe ▸ hx)
          · intro u hu
            show u ∉ (r.guests ++ [GuestEntry.entry ⟨uid, uname, now⟩]).map
              GuestEntry.gid
            rw [List.map_append]
            simp only [List.map_cons, List.map_nil, GuestEntry.gid,
              List.mem_append, List.mem_singleton]
            rintro (hin | heq)
            · exact hme u hu hin
            · exact h2 (heq ▸ hu)
  | true =>
      by_cases h1 : uid ∈ r.signups
      · simpa [joinRoam, h1] using ⟨hs, hg, hme⟩
      · have hres : joinRoam true uid uname now r =
            { r with guests := r.guests.filter (fun g => g.gid != uid),
                     signups := r.signups ++ [uid] } := by
          simp [joinRoam, h1]
        rw [hres]
        refine ⟨?_, ?_, ?_⟩
        · rw [List.nodup_append]
          refine ⟨hs, List.nodup_singleton uid, ?_⟩
          intro x hx
          simp only [List.mem_singleton]
          intro hxe
          exact h1 (hxe ▸ hx)
        · show ((r.guests.filter (fun g => g.gid != uid)).map
            GuestEntry.gid).Nodup
          rw [guestIds_filter]
          exact (show (guestIds r).Nodup from hg).filter _
        · intro u hu
          show u ∉ (r.guests.filter (fun g => g.gid != uid)).map
            GuestEntry.gid
          rw [guestIds_filter]
          intro hmem
          rcases (mem_filter_bne _ _ _).mp hmem with ⟨hin, hne⟩
          rcases List.mem_append.mp hu with hu1 | hu1
          · exact hme u hu1 hin
          · exact hne (List.mem_singleton.mp hu1)

/-- Case analysis of `leaveRoam`: the length-difference checks of the
source are equivalent to membership tests. -/
theorem leaveRoam_eq (reg : Bool) (uid : String) (r : Roam) :
    leaveRoam reg uid r =
      if reg = true ∧ uid ∈ r.signups then
        ({ r with signups := r.signups.filter (fun x => x != uid) }, true)
      else if uid ∈ guestIds r then
        ({ r with guests := r.guests.filter (fun g => g.gid != uid) }, true)
      else (r, false) := by
  cases reg with
  | false =>
      simp only [leaveRoam, Bool.false_eq_true, if_neg, false_and]
      by_cases hgu : uid ∈ guestIds r
      · have := guest_filter_length_lt r.guests uid hgu
        simp [Nat.ne_of_lt this, hgu]
      · have := guest_filter_eq_self r.guests uid hgu
        simp [this, hgu]
  | true =>
      by_cases hsu : uid ∈ r.signups
      · have := filter_bne_length_lt r.signups uid hsu
        simp [leaveRoam, Nat.ne_of_lt this, hsu]
      · have he : r.signups.filter (fun x => x != uid) = r.signups :=
          filter_bne_eq_self r.signups uid hsu
        simp only [leaveRoam, if_pos, he, ne_eq, not_true_eq_false,
          if_neg, true_and, hsu, and_false, false_and]
        by_cases hgu : uid ∈ guestIds r
        · have := guest_filter_length_lt r.guests uid hgu
          simp [Nat.ne_of_lt this, hgu]
        · have := guest_filter_eq_self r.guests uid hgu
          simp [this, hgu]

theorem leaveRoam_inv (reg : Bool) (uid : String) (r : Roam)
    (h : roamInv r) : roamInv (leaveRoam reg uid r).1 := by
  obtain ⟨hs, hg, hme⟩ := h
  rw [leaveRoam_eq]
  split_ifs with h1 h2
  · exact ⟨hs.filter _, hg,
      fun u hu => hme u (List.mem_of_mem_filter hu)⟩
  · refine ⟨hs, ?_, ?_⟩
    · show ((r.guests.filter _).map GuestEntry.gid).Nodup
      rw [guestIds_filter]
      exact (show (guestIds r).Nodup from hg).filter _
    · intro u hu
      show u ∉ (r.guests.filter _).map GuestEntry.gid
      rw [guestIds_filter]
      intro hmem
      exact hme u hu (List.mem_of_mem_filter hmem)
  · exact ⟨hs, hg, hme⟩

theorem applyToRoam_inv (rid : String) (f : Roam → Roam)
    (hf : ∀ r, roamInv r → roamInv (f r)) :
    ∀ roams : List Roam, (∀ r ∈ roams, roamInv r) →
      ∀ r ∈ applyToRoam rid f roams, roamInv r := by
  intro roams
  induction roams with
  | nil => intro _ r hr; simp [applyToRoam] at hr
  | cons a rs ih =>
      intro h r hr
      by_cases hid : a.id = rid
      · simp only [applyToRoam, if_pos hid, List.mem_cons] at hr
        rcases hr with hr | hr
        · exact hr ▸ hf a (h a (List.mem_cons_self a rs))
        · exact h r (List.mem_cons_of_mem a hr)
      · simp only [applyToRoam, if_neg hid, List.mem_cons] at hr
        rcases hr with hr | hr
        · exact hr ▸ h a (List.mem_cons_self a rs)
        · exact ih (fun x hx => h x (List.mem_cons_of_mem a hx)) r hr

theorem applyRosterEvent_inv (e : RosterEvent) (roams : List Roam)
    (h : ∀ r ∈ roams, roamInv r) :
    ∀ r ∈ applyRosterEvent e roams, roamInv r := by
  cases e with
  | join rid reg uid uname now =>
      exact applyToRoam_inv rid _
        (fun r hr => joinRoam_inv reg uid uname now r hr) roams h
  | leave rid reg uid =>
      exact applyToRoam_inv rid _
        (fun r hr => leaveRoam_inv reg uid r hr) roams h

/--
C1. When the Change Listener picks up a record in status `pending`, it
transitions it exactly once: the resulting status is `posted` or `error`
(never `pending` again, so the pending-query listener cannot pick it up a
second time and no retry happens); on a successful send and write-back the
record carries `status=posted`, the Discord message id, channel id, url,
`postedAt` and `reactions={✅:0}`; on any failure of formatting, send or
write-back it carries `status=error` with the message and `errorAt`.
-/
theorem postListener_transition (p : Post)
    (sendResult : Except String DiscordMessageData)
    (writeErr : Option String) (now : Nat) :
    ((processNewPost p sendResult writeErr now).status = Status.posted ∨
      (processNewPost p sendResult writeErr now).status = Status.errored)
    ∧ processNewPost p sendResult writeErr now =
        (match sendResult, writeErr with
          | .ok d, none =>
              { p with status := .posted,
                       discordMessageId := some d.messageId,
                       discordChannelId := some d.channelId,
                       discordUrl := some d.url,
                       postedAt := some now,
                       reactions := [(ackEmoji, 0)] }
          | .ok _, some msg =>
              { p with status := .errored, errorMsg := some msg,
                       errorAt := some now }
          | .error msg, _ =>
              { p with status := .errored, errorMsg := some msg,
                       errorAt := some now }) := by
  cases sendResult with
  | error msg => exact ⟨Or.inr rfl, rfl⟩
  | ok d =>
      cases writeErr with
      | none => exact ⟨Or.inl rfl, rfl⟩
      | some msg => exact ⟨Or.inr rfl, rfl⟩

/--
C7. Loop prevention: the write-back the engine performs after editing a
channel message (setting the internal-update flag with `lastUpdated` and
clearing `updateRequested`), and the delayed write that clears the flag
again, never satisfy the dispatch condition of either update listener, so
the write-back never causes another edit to be sent to the channel.
-/
theorem internal_writeback_no_redispatch (p : Post) (now : Nat) :
    manualUpdateDispatch (internalWriteBack p now) = false
    ∧ autoUpdateDispatch (internalWriteBack p now) = false
    ∧ manualUpdateDispatch (clearInternalFlag (internalWriteBack p now))
        = false
    ∧ autoUpdateDispatch (clearInternalFlag (internalWriteBack p now))
        = false := by
  have hcc : hasContentChanges = false := rfl
  by_cases h : p.updateRequested <;>
    simp [manualUpdateDispatch, autoUpdateDispatch, internalWriteBack,
      clearInternalFlag, hcc, h]

/--
C2. For every Event in the Roster and at every observation point (after
any sequence of join and leave reconciliations from a state satisfying the
data-model invariant), no external id is in both an Event's `signups` and
its guest list, and each list holds any external id at most once.
-/
theorem roster_mutual_exclusion (events : List RosterEvent)
    (roams : List Roam) (h : ∀ r ∈ roams, roamInv r) :
    ∀ r ∈ applyRosterEvents events roams, roamInv r := by
  induction events generalizing roams with
  | nil => simpa [applyRosterEvents] using h
  | cons e es ih =>
      have h1 := applyRosterEvent_inv e roams h
      simpa [applyRosterEvents, List.foldl_cons] using
        ih (applyRosterEvent e roams) h1

theorem roster_mutual_exclusion_witness :
    (∀ r ∈ demoRoams, roamInv r)
    ∧ ∀ r ∈ applyRosterEvents demoEvents demoRoams, roamInv r :=
  ⟨by decide, roster_mutual_exclusion demoEvents demoRoams (by decide)⟩

/--
C3. Join reconciliation is idempotent: applying a join event for the same
external id (with the same resolution outcome) on the same Event twice
leaves the Event unchanged after the second application — a known account
already in `signups`, or a guest already in `guests`, is a no-op.  Stated
for arbitrary display names and timestamps of the repeated event.
-/
theorem join_idempotent (reg : Bool) (uid uname1 uname2 : String)
    (t1 t2 : Nat) (r : Roam) :
    joinRoam reg uid uname2 t2 (joinRoam reg uid uname1 t1 r) =
      joinRoam reg uid uname1 t1 r := by
  cases reg with
  | true =>
      by_cases h1 : uid ∈ r.signups
      · simp [joinRoam, h1]
      · have hres : joinRoam true uid uname1 t1 r =
            { r with guests := r.guests.filter (fun g => g.gid != uid),
                     signups := r.signups ++ [uid] } := by
          simp [joinRoam, h1]
        rw [hres]
        have hmem : uid ∈ r.signups ++ [uid] :=
          List.mem_append.mpr (Or.inr (List.mem_singleton.mpr rfl))
        simp [joinRoam, hmem]
  | false =>
      by_cases h1 : uid ∈ guestIds r
      · simp [joinRoam, h1]
      · by_cases h2 : uid ∈ r.signups
        · simp [joinRoam, h1, h2]
        · have hres : joinRoam false uid uname1 t1 r =
              { r with guests :=
                  r.guests ++ [GuestEntry.entry ⟨uid, uname1, t1⟩] } := by
            simp [joinRoam, h1, h2]
          rw [hres]
          have hmem : uid ∈ guestIds { r with guests :=
              r.guests ++ [GuestEntry.entry ⟨uid, uname1, t1⟩] } := by
            simp [guestIds, List.map_append, GuestEntry.gid]
          simp [joinRoam, hmem]

/--
C4. A join event whose external id does not resolve to a known account,
with the id in neither the guest list nor `signups`, appends a structured
guest record `{discordId, discordUsername, addedAt}` and leaves `signups`
unchanged — an unresolved user is a first-class guest, not an error.
-/
theorem unknown_user_becomes_guest (uid uname : String) (now : Nat)
    (r : Roam) (hg : uid ∉ guestIds r) (hs : uid ∉ r.signups) :
    (joinRoam false uid uname now r).guests =
        r.guests ++ [GuestEntry.entry ⟨uid, uname, now⟩]
    ∧ (joinRoam false uid uname now r).signups = r.signups := by
  simp [joinRoam, hg, hs]

theorem unknown_user_becomes_guest_witness :
    ("G2" ∉ guestIds demoRoam1 ∧ "G2" ∉ demoRoam1.signups)
    ∧ ((joinRoam false "G2" "walkin" 10 demoRoam1).guests =
          demoRoam1.guests ++ [GuestEntry.entry ⟨"G2", "walkin", 10⟩]
        ∧ (joinRoam false "G2" "walkin" 10 demoRoam1).signups =
          demoRoam1.signups) :=
  ⟨⟨by decide, by decide⟩,
    unknown_user_becomes_guest "G2" "walkin" 10 demoRoam1
      (by decide) (by decide)⟩

/--
C5. Promotion: a join event whose external id resolves to a known account
while the id is in the Event's guest list (the Event satisfying the roster
invariant) moves the id from `guests` to `signups`; afterwards the id is
in `signups` and in the guest list no more, so never in both.
-/
theorem guest_promotion (uid uname : String) (now : Nat) (r : Roam)
    (hinv : roamInv r) (hg : uid ∈ guestIds r) :
    (joinRoam true uid uname now r).signups = r.signups ++ [uid]
    ∧ (joinRoam true uid uname now r).guests =
        r.guests.filter (fun g => g.gid != uid)
    ∧ uid ∈ (joinRoam true uid uname now r).signups
    ∧ uid ∉ guestIds (joinRoam true uid uname now r) := by
  have hs : uid ∉ r.signups := fun hmem => hinv.2.2 uid hmem hg
  have hres : joinRoam true uid uname now r =
      { r with guests := r.guests.filter (fun g => g.gid != uid),
               signups := r.signups ++ [uid] } := by
    simp [joinRoam, hs]
  rw [hres]
  refine ⟨rfl, rfl, ?_, ?_⟩
  · exact List.mem_append.mpr (Or.inr (List.mem_singleton.mpr rfl))
  · show uid ∉ (r.guests.filter (fun g => g.gid != uid)).map GuestEntry.gid
    rw [guestIds_filter]
    intro hmem
    exact ((mem_filter_bne _ _ _).mp hmem).2 rfl

theorem guest_promotion_witness :
    (roamInv demoRoam1 ∧ "G1" ∈ guestIds demoRoam1)
    ∧ ((joinRoam true "G1" "spectator" 20 demoRoam1).signups =
          demoRoam1.signups ++ ["G1"]
        ∧ (joinRoam true "G1" "spectator" 20 demoRoam1).guests =
          demoRoam1.guests.filter (fun g => g.gid != "G1")
        ∧ "G1" ∈ (joinRoam true "G1" "spectator" 20 demoRoam1).signups
        ∧ "G1" ∉ guestIds (joinRoam true "G1" "spectator" 20 demoRoam1)) :=
  ⟨⟨by decide, by decide⟩,
    guest_promotion "G1" "spectator" 20 demoRoam1 (by decide) (by decide)⟩

/--
C6 counterexample. The claim says a leave event removes the user id from
`signups` whenever it is present there.  For a reactor who is not a
registered user, the source never touches `signups`: with the id "U1" in
`signups` and an empty guest list, the handler leaves the roster unchanged
and reports "was not signed up".
-/
theorem leave_unregistered_in_signups_cex :
    "U1" ∈ demoStaleRoam.signups
    ∧ leaveRoam false "U1" demoStaleRoam = (demoStaleRoam, false)
    ∧ (leaveRoam false "U1" demoStaleRoam).1.signups = ["U1"] := by
  refine ⟨by decide, ?_, ?_⟩ <;> decide

/--
C6 (amended). For a leave event: when the reactor resolves to a known
account and the id is in `signups`, the id is removed from `signups` (the
guest list untouched); otherwise, when the id is in the guest list, the
matching guest entries are removed; when neither removal applies the
operation is a no-op that reports "was not signed up" (flag `false`) and
leaves the Event unchanged; and under the roster invariant a second
removal of the same id changes nothing.
-/
theorem leave_removal_cases (reg : Bool) (uid : String) (r : Roam)
    (hinv : roamInv r) :
    (reg = true → uid ∈ r.signups →
        leaveRoam reg uid r =
          ({ r with signups := r.signups.filter (fun x => x != uid) },
            true))
    ∧ ((reg = false ∨ uid ∉ r.signups) → uid ∈ guestIds r →
        leaveRoam reg uid r =
          ({ r with guests := r.guests.filter (fun g => g.gid != uid) },
            true))
    ∧ ((reg = false ∨ uid ∉ r.signups) → uid ∉ guestIds r →
        leaveRoam reg uid r = (r, false))
    ∧ (leaveRoam reg uid (leaveRoam reg uid r).1).1 =
        (leaveRoam reg uid r).1 := by
  obtain ⟨hs, hg, hme⟩ := hinv
  refine ⟨?_, ?_, ?_, ?_⟩
  · intro hreg hmem
    rw [leaveRoam_eq, if_pos ⟨hreg, hmem⟩]
  · intro hor hgu
    have hno : ¬(reg = true ∧ uid ∈ r.signups) := by
      rcases hor with hor | hor
      · rintro ⟨h1, _⟩; rw [hor] at h1; cases h1
      · rintro ⟨_, h2⟩; exact hor h2
    rw [leaveRoam_eq, if_neg hno, if_pos hgu]
  · intro hor hgu
    have hno : ¬(reg = true ∧ uid ∈ r.signups) := by
      rcases hor with hor | hor
      · rintro ⟨h1, _⟩; rw [hor] at h1; cases h1
      · rintro ⟨_, h2⟩; exact hor h2
    rw [leaveRoam_eq, if_neg hno, if_neg hgu]
  · by_cases h1 : reg = true ∧ uid ∈ r.signups
    · have hfirst : (leaveRoam reg uid r).1 =
          { r with signups := r.signups.filter (fun x => x != uid) } := by
        rw [leaveRoam_eq, if_pos h1]
      rw [hfirst]
      have hA : ¬(reg = true ∧ uid ∈
          ({ r with signups :=
              r.signups.filter (fun x => x != uid) } : Roam).signups) := by
        rintro ⟨_, hmem⟩
        exact ((mem_filter_bne _ _ _).mp hmem).2 rfl
      have hB : uid ∉ guestIds
          ({ r with signups :=
              r.signups.filter (fun x => x != uid) } : Roam) :=
        hme uid h1.2
      rw [leaveRoam_eq, if_neg hA, if_neg hB]
    · by_cases h2 : uid ∈ guestIds r
      · have hfirst : (leaveRoam reg uid r).1 =
            { r with guests :=
                r.guests.filter (fun g => g.gid != uid) } := by
          rw [leaveRoam_eq, if_neg h1, if_pos h2]
        rw [hfirst]
        have hA : ¬(reg = true ∧ uid ∈
            ({ r with guests :=
                r.guests.filter (fun g => g.gid != uid) } : Roam).signups) :=
          h1
        have hB : uid ∉ guestIds
            ({ r with guests :=
                r.guests.filter (fun g => g.gid != uid) } : Roam) := by
          show uid ∉ (r.guests.filter (fun g => g.gid != uid)).map
            GuestEntry.gid
          rw [guestIds_filter]
          intro hmem
          exact ((mem_filter_bne _ _ _).mp hmem).2 rfl
        rw [leaveRoam_eq, if_neg hA, if_neg hB]
      · have hfirst : (leaveRoam reg uid r).1 = r := by
          rw [leaveRoam_eq, if_neg h1, if_neg h2]
        rw [hfirst, leaveRoam_eq, if_neg h1, if_neg h2]

theorem leave_removal_cases_witness :
    roamInv demoRoam1
    ∧ ((true = true → "U1" ∈ demoRoam1.signups →
          leaveRoam true "U1" demoRoam1 =
            ({ demoRoam1 with
                signups := demoRoam1.signups.filter (fun x => x != "U1") },
              true))
      ∧ ((true = false ∨ "U1" ∉ demoRoam1.signups) →
          "U1" ∈ guestIds demoRoam1 →
          leaveRoam true "U1" demoRoam1 =
            ({ demoRoam1 with
                guests :=
                  demoRoam1.guests.filter (fun g => g.gid != "U1") },
              true))
      ∧ ((true = false ∨ "U1" ∉ demoRoam1.signups) →
          "U1" ∉ guestIds demoRoam1 →
          leaveRoam true "U1" demoRoam1 = (demoRoam1, false))
      ∧ (leaveRoam true "U1" (leaveRoam true "U1" demoRoam1).1).1 =
          (leaveRoam true "U1" demoRoam1).1) :=
  ⟨by decide, leave_removal_cases true "U1" demoRoam1 (by decide)⟩

/-! ## Sweeper lemmas -/

theorem sync_map_eq (fetch : String → Option (List (String × Nat)))
    (writeOk : String → Bool) (now : Nat) :
    ∀ store : List Post,
      (∀ p ∈ store, p.status = Status.posted →
        p.discordMessageId.isSome = true) →
      (syncAllReactionCounts fetch writeOk now store).1 =
        store.map (fun p =>
          if p.status = Status.posted then
            (sweepRecord fetch writeOk now p).1
          else p) := by
  intro store
  induction store with
  | nil => intro _; rfl
  | cons p ps ih =>
      intro h
      have hrest := ih (fun q hq => h q (List.mem_cons_of_mem p hq))
      by_cases hst : p.status = Status.posted
      · have hsome := h p (List.mem_cons_self p ps) hst
        have hfil : sweepFilter p = true := by
          simp [sweepFilter, hst, hsome]
        simp [syncAllReactionCounts, hfil, hst, hrest]
      · have hfil : sweepFilter p = false := by
          simp [sweepFilter, hst]
        simp [syncAllReactionCounts, hfil, hst, hrest]

theorem sync_count_eq (fetch : String → Option (List (String × Nat)))
    (writeOk : String → Bool) (now : Nat) :
    ∀ store : List Post,
      (syncAllReactionCounts fetch writeOk now store).2 =
        (store.filter (fun p =>
          sweepFilter p && (sweepRecord fetch writeOk now p).2)).length := by
  intro store
  induction store with
  | nil => rfl
  | cons p ps ih =>
      by_cases hfil : sweepFilter p = true
      · by_cases hok : (sweepRecord fetch writeOk now p).2 = true
        · simp [syncAllReactionCounts, hfil, hok, List.filter_cons, ih,
            Nat.add_comm]
        · have hok2 : (sweepRecord fetch writeOk now p).2 = false := by
            simpa using hok
          simp [syncAllReactionCounts, hfil, hok2, List.filter_cons, ih]
      · have hfil2 : sweepFilter p = false := by simpa using hfil
        simp [syncAllReactionCounts, hfil2, List.filter_cons, ih]

/--
C8. The sweep iterates exactly the records with `status=posted` (granted
the data-model invariant that every posted record carries its channel
message id), overwrites each successfully processed record's `reactions`
with the authoritative channel snapshot together with a `lastReactionSync`
stamp — so its ack count equals the channel's live count — skips without
aborting any record whose fetch or write fails, and returns the number of
records successfully corrected.
-/
theorem sweep_sync (fetch : String → Option (List (String × Nat)))
    (writeOk : String → Bool) (now : Nat) (store : List Post)
    (hinv : ∀ p ∈ store, p.status = Status.posted →
      p.discordMessageId.isSome = true) :
    (syncAllReactionCounts fetch writeOk now store).1 =
      store.map (fun p =>
        if p.status = Status.posted then
          (sweepRecord fetch writeOk now p).1
        else p)
    ∧ (syncAllReactionCounts fetch writeOk now store).2 =
      (store.filter (fun p =>
        sweepFilter p && (sweepRecord fetch writeOk now p).2)).length
    ∧ (∀ p : Post, ∀ mid stats, p.discordMessageId = some mid →
        fetch mid = some stats → writeOk mid = true →
          sweepRecord fetch writeOk now p =
            ({ p with reactions := stats, lastReactionSync := some now },
              true))
    ∧ (∀ p : Post, ∀ mid, p.discordMessageId = some mid →
        (fetch mid = none ∨ writeOk mid = false) →
          sweepRecord fetch writeOk now p = (p, false)) := by
  refine ⟨sync_map_eq fetch writeOk now store hinv,
    sync_count_eq fetch writeOk now store, ?_, ?_⟩
  · intro p mid stats hmid hstats hok
    simp [sweepRecord, hmid, hstats, hok]
  · intro p mid hmid hfail
    rcases hfail with hfail | hfail
    · simp [sweepRecord, hmid, hfail]
    · rcases h2 : fetch mid with _ | stats
      · simp [sweepRecord, hmid, h2]
      · simp [sweepRecord, hmid, h2, hfail]

theorem sweep_sync_witness :
    (∀ p ∈ demoStore, p.status = Status.posted →
      p.discordMessageId.isSome = true)
    ∧ ((syncAllReactionCounts demoFetch demoWriteOk 50 demoStore).1 =
        demoStore.map (fun p =>
          if p.status = Status.posted then
            (sweepRecord demoFetch demoWriteOk 50 p).1
          else p)
      ∧ (syncAllReactionCounts demoFetch demoWriteOk 50 demoStore).2 =
        (demoStore.filter (fun p =>
          sweepFilter p &&
            (sweepRecord demoFetch demoWriteOk 50 p).2)).length
      ∧ (∀ p : Post, ∀ mid stats, p.discordMessageId = some mid →
          demoFetch mid = some stats → demoWriteOk mid = true →
            sweepRecord demoFetch demoWriteOk 50 p =
              ({ p with reactions := stats, lastReactionSync := some 50 },
                true))
      ∧ (∀ p : Post, ∀ mid, p.discordMessageId = some mid →
          (demoFetch mid = none ∨ demoWriteOk mid = false) →
            sweepRecord demoFetch demoWriteOk 50 p = (p, false))) :=
  ⟨by decide, sweep_sync demoFetch demoWriteOk 50 demoStore (by decide)⟩

/-! ## Identity-cache lemmas -/

theorem lookup_cacheSet (cache : List (String × CacheEntry)) (k : String)
    (v : CacheEntry) : List.lookup k (cacheSet cache k v) = some v := by
  induction cache with
  | nil => simp [cacheSet, List.lookup]
  | cons kv rest ih =>
      obtain ⟨k0, v0⟩ := kv
      by_cases h : k0 = k
      · simp [cacheSet, h, List.lookup]
      · have hne : (k == k0) = false := by
          simp only [beq_eq_false_iff_ne, ne_eq]
          exact fun he => h he.symm
        simp [cacheSet, h, List.lookup, hne, ih]

/--
C9 counterexample. The roster reconciler does not resolve the reacting
user through the Identity Cache: `handleRoamSignup` performs an
unconditional direct read of the users collection, so two resolutions of
the same external id — here the registered user "U1", back to back and
hence within any TTL — cost two account-store lookups, not at most one.
-/
theorem reconciler_double_lookup_cex :
    (signupResolve demoUsers "U1").2 +
        (signupResolve demoUsers "U1").2 = 2
    ∧ ¬((signupResolve demoUsers "U1").2 +
        (signupResolve demoUsers "U1").2 ≤ 1)
    ∧ (demoUsers "U1").isSome = true := by
  refine ⟨?_, ?_, ?_⟩ <;> decide

/--
C9 (amended). The Identity Cache itself (`UserCache.getFirebaseUserId`)
serves repeated resolutions from memory: when the id is not yet cached and
the first resolution finds a known account (negative results are never
cached), the first call performs exactly one store lookup and populates
the cache, and a second call within the 5-minute TTL is answered from the
cache with no store I/O; the roster reconciliation path, however, performs
one direct account-store read on every event instead of using the cache.
-/
theorem cache_hit_no_io (users : String → Option UserRow)
    (cache : List (String × CacheEntry)) (t1 t2 : Nat)
    (discordId : String) (u : UserRow)
    (hmiss : List.lookup discordId cache = none)
    (hfound : users discordId = some u)
    (httl : t2 - t1 < cacheTimeoutMs) :
    getFirebaseUserId users cache t1 discordId =
      (some ⟨u.firebaseDocId, u.username, false⟩,
        cacheSet cache discordId ⟨u.firebaseDocId, u.username, t1⟩, 1)
    ∧ getFirebaseUserId users
        (cacheSet cache discordId ⟨u.firebaseDocId, u.username, t1⟩)
        t2 discordId =
      (some ⟨u.firebaseDocId, u.username, true⟩,
        cacheSet cache discordId ⟨u.firebaseDocId, u.username, t1⟩, 0)
    ∧ (signupResolve users discordId).2 = 1 := by
  refine ⟨?_, ?_, ?_⟩
  · simp [getFirebaseUserId, hmiss, queryUsers, hfound]
  · simp [getFirebaseUserId, lookup_cacheSet, httl]
  · simp [signupResolve, hfound]

theorem cache_hit_no_io_witness :
    (List.lookup "U1" ([] : List (String × CacheEntry)) = none
      ∧ demoUsers "U1" = some ⟨"F1", "alice"⟩
      ∧ 1000 - 0 < cacheTimeoutMs)
    ∧ (getFirebaseUserId demoUsers [] 0 "U1" =
        (some ⟨"F1", "alice", false⟩,
          cacheSet [] "U1" ⟨"F1", "alice", 0⟩, 1)
      ∧ getFirebaseUserId demoUsers
          (cacheSet [] "U1" ⟨"F1", "alice", 0⟩) 1000 "U1" =
        (some ⟨"F1", "alice", true⟩,
          cacheSet [] "U1" ⟨"F1", "alice", 0⟩, 0)
      ∧ (signupResolve demoUsers "U1").2 = 1) :=
  ⟨⟨rfl, by decide, by decide⟩,
    cache_hit_no_io demoUsers [] 0 1000 "U1" ⟨"F1", "alice"⟩ rfl
      (by decide) (by decide)⟩

/-! ## Reaction-count write path lemmas -/

theorem lookup_setReaction_self (l : List (String × Nat)) (e : String)
    (c : Nat) : List.lookup e (setReaction l e c) = some c := by
  induction l with
  | nil => simp [setReaction, List.lookup]
  | cons kv rest ih =>
      obtain ⟨k, v⟩ := kv
      by_cases h : k = e
      · simp [setReaction, h, List.lookup]
      · have hne : (e == k) = false := by
          simp only [beq_eq_false_iff_ne, ne_eq]
          exact fun he => h he.symm
        simp [setReaction, h, List.lookup, hne, ih]

theorem lookup_setReaction_ne (l : List (String × Nat)) (e e2 : String)
    (c : Nat) (h : e2 ≠ e) :
    List.lookup e2 (setReaction l e c) = List.lookup e2 l := by
  induction l with
  | nil =>
      have hne : (e2 == e) = false := by
        simp only [beq_eq_false_iff_ne, ne_eq]; exact h
      simp [setReaction, List.lookup, hne]
  | cons kv rest ih =>
      obtain ⟨k, v⟩ := kv
      by_cases hk : k = e
      · have hne : (e2 == e) = false := by
          simp only [beq_eq_false_iff_ne, ne_eq]; exact h
        subst hk
        simp [setReaction, List.lookup, hne]
      · by_cases h2 : e2 = k
        · subst h2
          simp [setReaction, hk, List.lookup]
        · have hne2 : (e2 == k) = false := by
            simp only [beq_eq_false_iff_ne, ne_eq]; exact h2
          simp [setReaction, hk, List.lookup, hne2, ih]

/--
C10. `updateReactionCount(discordMessageId, emoji, count)` modifies at
most one stored record — the first whose `discordMessageId` matches — and
of that record only `reactions[emoji]` and `lastReactionUpdate`: every
record before the match does not match and is unchanged, every record
after it is unchanged, every other field of the matched record and every
other reaction key keep their values, and when no record matches the store
is left entirely unchanged.
-/
theorem updateReactionCount_frame (mid emoji : String) (count now : Nat)
    (store : List Post) :
    (((∀ p ∈ store, matchesMessage mid p = false)
        ∧ updateReactionCount mid emoji count now store = store)
      ∨ (∃ pre x post, store = pre ++ x :: post
          ∧ (∀ p ∈ pre, matchesMessage mid p = false)
          ∧ matchesMessage mid x = true
          ∧ updateReactionCount mid emoji count now store =
              pre ++ applyReactionUpdate emoji count now x :: post))
    ∧ (∀ p : Post,
        (applyReactionUpdate emoji count now p).title = p.title
        ∧ (applyReactionUpdate emoji count now p).description =
            p.description
        ∧ (applyReactionUpdate emoji count now p).author = p.author
        ∧ (applyReactionUpdate emoji count now p).additionalInfo =
            p.additionalInfo
        ∧ (applyReactionUpdate emoji count now p).roamId = p.roamId
        ∧ (applyReactionUpdate emoji count now p).status = p.status
        ∧ (applyReactionUpdate emoji count now p).discordMessageId =
            p.discordMessageId
        ∧ (applyReactionUpdate emoji count now p).discordChannelId =
            p.discordChannelId
        ∧ (applyReactionUpdate emoji count now p).discordUrl = p.discordUrl
        ∧ (applyReactionUpdate emoji count now p).updateRequested =
            p.updateRequested
        ∧ (applyReactionUpdate emoji count now p).internalUpdateFlag =
            p.internalUpdateFlag
        ∧ (applyReactionUpdate emoji count now p).errorMsg = p.errorMsg
        ∧ (applyReactionUpdate emoji count now p).errorAt = p.errorAt
        ∧ (applyReactionUpdate emoji count now p).updateError =
            p.updateError
        ∧ (applyReactionUpdate emoji count now p).updateErrorAt =
            p.updateErrorAt
        ∧ (applyReactionUpdate emoji count now p).createdAt = p.createdAt
        ∧ (applyReactionUpdate emoji count now p).postedAt = p.postedAt
        ∧ (applyReactionUpdate emoji count now p).lastUpdated =
            p.lastUpdated
        ∧ (applyReactionUpdate emoji count now p).lastReactionSync =
            p.lastReactionSync
        ∧ (applyReactionUpdate emoji count now p).lastReactionUpdate =
            some now
        ∧ List.lookup emoji
            (applyReactionUpdate emoji count now p).reactions = some count
        ∧ ∀ e2, e2 ≠ emoji →
            List.lookup e2 (applyReactionUpdate emoji count now p).reactions
              = List.lookup e2 p.reactions) := by
  constructor
  · induction store with
    | nil => exact Or.inl ⟨fun p hp => (List.not_mem_nil p hp).elim, rfl⟩
    | cons p ps ih =>
        by_cases h : matchesMessage mid p = true
        · refine Or.inr ⟨[], p, ps, rfl, ?_, h, ?_⟩
          · intro q hq; cases hq
          · simp [updateReactionCount, h]
        · have hfalse : matchesMessage mid p = false := by simpa using h
          rcases ih with ⟨hall, heq⟩ | ⟨pre, x, post, hsplit, hpre, hx, heq⟩
          · refine Or.inl ⟨?_, ?_⟩
            · intro q hq
              rcases List.mem_cons.mp hq with rfl | hq
              · exact hfalse
              · exact hall q hq
            · simp [updateReactionCount, hfalse, heq]
          · refine Or.inr ⟨p :: pre, x, post, by simp [hsplit], ?_, hx, ?_⟩
            · intro q hq
              rcases List.mem_cons.mp hq with rfl | hq
              · exact hfalse
              · exact hpre q hq
            · simp [updateReactionCount, hfalse, heq]
  · intro p
    refine ⟨rfl, rfl, rfl, rfl, rfl, rfl, rfl, rfl, rfl, rfl, rfl, rfl,
      rfl, rfl, rfl, rfl, rfl, rfl, rfl, rfl,
      lookup_setReaction_self p.reactions emoji count,
      fun e2 h2 => lookup_setReaction_ne p.reactions emoji e2 count h2⟩

end BonfireDiscord
